import Mathlib

/-!
Verification of the training-job orchestrator (`src/scale-ai/training/worker.py`)
and the quality scorer (`src/scale-ai/training/quality.py`).

The orchestrator is embedded shallowly: its interactions with the external
systems (status store, artifact store, model registry) are recorded as a trace
of write events, and the values it *reads* from the outside world (the status
read of the pre-start / pre-epoch cancellation checks, the per-epoch validation
accuracy produced by the opaque training computation, and whether the artifact
upload raises) are supplied as oracle parameters.  Machine floats are modelled
by ℚ: the accuracies and quality scores are only ever compared, never
accumulated in a precision-sensitive way, and `int(n * 0.8)` is modelled by
`n * 8 / 10` (exact for every dataset size that fits in a float's mantissa).
Database/queue failures other than the artifact upload are outside the claims
and are not modelled; log output (`print`) has no effect and is dropped.
-/

namespace ScaleAI

/-- Job lifecycle states (column `training_jobs.status`). -/
inductive Status where
  | pending
  | running
  | completed
  | failed
  | cancelled
  deriving DecidableEq, Repr

/-- Progress phases written by the worker (`progress.phase`). -/
inductive Phase where
  | initializing
  | loading_data
  | preparing_data
  | training
  | saving_model
  deriving DecidableEq, Repr

/-- One externally visible write performed while processing a job:
a `training_jobs` row update (`update_job_status` / `update_job_progress`),
an object upload to the models bucket (`save_model_to_minio`), or an insert
into the `models` registry table (`create_model_record`).  A model state is
identified by the epoch index (0-based) after which its weights were captured;
`none` stands for the untrained initial weights. -/
inductive Event where
  | statusWrite (status : Status) (errorMessage : Option String)
      (modelPath : Option String) (progress : Option Phase)
  | progressWrite (phase : Phase) (currentEpoch : Nat)
  | artifactPut (objectName : String) (modelState : Option Nat)
  | modelRecord (trainingJobId : String) (modelPath : String) (accuracy : ℚ)
  deriving DecidableEq, Repr

/-- `update_job_status` (worker.py:117): one row update carrying the new
status, and, for a `running` write, the optional initial progress snapshot.
Metrics blobs are abstracted; the error message and model path are kept. -/
def update_job_status (status : Status) (errorMessage : Option String)
    (modelPath : Option String) (progress : Option Phase) : Event :=
  Event.statusWrite status errorMessage modelPath progress

/-- `update_job_progress` (worker.py:155): overwrites the progress snapshot.
Only the phase and current epoch are kept; the per-epoch loss numbers are
opaque to every claim. -/
def update_job_progress (phase : Phase) (currentEpoch : Nat) : Event :=
  Event.progressWrite phase currentEpoch

/-- Does `needle` occur at the head of `hay`? (used to model Python's
substring test on `error_msg.lower()`). -/
def leadsWith : List Char → List Char → Bool
  | [], _ => true
  | _ :: _, [] => false
  | a :: as, b :: bs => a == b && leadsWith as bs

/-- Does `needle` occur as a contiguous run inside `hay`? -/
def hasSub (needle : List Char) : List Char → Bool
  | [] => needle.isEmpty
  | c :: t => leadsWith needle (c :: t) || hasSub needle t

/-- `'cancelled' in error_msg.lower()` (worker.py:480). -/
def containsCancelled (s : String) : Bool :=
  hasSub "cancelled".data (s.data.map Char.toLower)

/-- The epoch loop of `train_model` (worker.py:240-313), one step per
remaining epoch.  `e` is the absolute 0-based epoch index; `cancelledAt e`
is the status-store read of the cancellation check at the start of epoch
`e`; `valAcc e` is the validation accuracy the epoch produces.  Returns the
progress-callback events emitted and either the cancellation exception or
the final `(best_val_acc, best_model_state)` pair. -/
def trainFrom (cancelledAt : Nat → Bool) (valAcc : Nat → ℚ) :
    Nat → Nat → ℚ → Option Nat → List Event × Except String (ℚ × Option Nat)
  | 0, _, best, bestSt => ([], Except.ok (best, bestSt))
  | rem + 1, e, best, bestSt =>
    if cancelledAt e then
      ([], Except.error "Training cancelled by user")
    else
      let acc := valAcc e
      let next :=
        if best < acc then trainFrom cancelledAt valAcc rem (e + 1) acc (some e)
        else trainFrom cancelledAt valAcc rem (e + 1) best bestSt
      (Event.progressWrite Phase.training (e + 1) :: next.1, next.2)

/-- `train_model` (worker.py:207-343).  After the loop, the best checkpoint is
reloaded when one was saved (`if best_model_state:`); otherwise the weights
left from the final epoch remain current.  With `epochs = 0` the metrics
construction evaluates `history['train_loss'][-1]` on an empty list and
raises `IndexError('list index out of range')`.  Returns the emitted events
and either the error or `(final model state, metrics accuracy)`. -/
def train_model (epochs : Nat) (cancelledAt : Nat → Bool) (valAcc : Nat → ℚ) :
    List Event × Except String (Option Nat × ℚ) :=
  let r := trainFrom cancelledAt valAcc epochs 0 0 none
  match r.2 with
  | Except.error m => (r.1, Except.error m)
  | Except.ok (best, bestSt) =>
    match epochs with
    | 0 => (r.1, Except.error "list index out of range")
    | Nat.succ k =>
      let finalModel : Option Nat :=
        match bestSt with
        | some b => some b
        | none => some k
      (r.1, Except.ok (finalModel, best))

/-- The `except` clause of `process_job` (worker.py:475-485): if the error
message contains `cancelled` the status write is skipped (the cancelling
actor owns the terminal state), otherwise a `failed` terminal write is
performed; in both cases the exception is re-raised. -/
def handleJobError (evs : List Event) (m : String) :
    List Event × Except String Unit :=
  if containsCancelled m then (evs, Except.error m)
  else (evs ++ [update_job_status Status.failed (some m) none none],
        Except.error m)

/-- `process_job` (worker.py:392-488).  Oracle inputs: `alreadyCancelled` is
the status-store read of the initial cancellation check, `n` the number of
drawings returned by `fetch_training_data`, `cancelledAt`/`valAcc` the
per-epoch oracles of the training loop, and `saveErr` is `some m` when the
artifact upload raises an exception with message `m`.  Returns the write
trace and the outcome seen by the queue callback (`ok` = normal return,
`error` = exception propagated out of `process_job`). -/
def process_job (jobId : String) (epochs : Nat) (alreadyCancelled : Bool)
    (n : Nat) (cancelledAt : Nat → Bool) (valAcc : Nat → ℚ)
    (saveErr : Option String) : List Event × Except String Unit :=
  if alreadyCancelled then ([], Except.ok ()) else
  let evs0 : List Event :=
    [update_job_status Status.running none none (some Phase.initializing),
     update_job_progress Phase.loading_data 0]
  if n < 10 then
    handleJobError evs0 ("Not enough training data: " ++ toString n ++ " drawings")
  else
    let evs1 := evs0 ++ [update_job_progress Phase.preparing_data 0]
    match train_model epochs cancelledAt valAcc with
    | (tevs, Except.error m) => handleJobError (evs1 ++ tevs) m
    | (tevs, Except.ok (finalModel, bestAcc)) =>
      let evs2 := evs1 ++ tevs ++ [update_job_progress Phase.saving_model epochs]
      match saveErr with
      | some m => handleJobError evs2 m
      | none =>
        let mp := jobId ++ ".pt"
        (evs2 ++ [Event.artifactPut mp finalModel,
                  Event.modelRecord jobId mp bestAcc,
                  update_job_status Status.completed none (some mp) none],
         Except.ok ())

/-- The queue callback (worker.py:511-523): ack on normal return of
`process_job`, nack (reject without requeue) when it raises. -/
def messageAck (outcome : Except String Unit) : Bool :=
  match outcome with
  | Except.ok _ => true
  | Except.error _ => false

/-- `pending → running` write. -/
def Event.isRunningWrite : Event → Bool
  | Event.statusWrite Status.running _ _ _ => true
  | _ => false

/-- Terminal status write (`completed`, `failed` or `cancelled`). -/
def Event.isTerminalWrite : Event → Bool
  | Event.statusWrite Status.completed _ _ _ => true
  | Event.statusWrite Status.failed _ _ _ => true
  | Event.statusWrite Status.cancelled _ _ _ => true
  | _ => false

/-- `failed` terminal write. -/
def Event.isFailedWrite : Event → Bool
  | Event.statusWrite Status.failed _ _ _ => true
  | _ => false

/-- `completed` terminal write. -/
def Event.isCompletedWrite : Event → Bool
  | Event.statusWrite Status.completed _ _ _ => true
  | _ => false

/-- Any `training_jobs.status` write. -/
def Event.isStatusWrite : Event → Bool
  | Event.statusWrite _ _ _ _ => true
  | _ => false

/-- Number of per-epoch (`phase = training`) progress writes in a trace:
one per epoch that actually ran. -/
def trainingEvents (l : List Event) : Nat :=
  (l.filter fun ev =>
    match ev with
    | Event.progressWrite Phase.training _ => true
    | _ => false).length

/-- A row of the `drawings`/`shapes` join as selected by
`fetch_training_data` (worker.py:178-204), together with the two columns its
`WHERE` clause consults. -/
structure Row where
  id : Nat
  stroke_data_path : String
  shape_name : String
  is_flagged : Bool
  quality_score : Option ℚ
  deriving DecidableEq, Repr

/-- The `WHERE` clause of `fetch_training_data`: `d.is_flagged = FALSE`,
and, when `min_quality_score` is configured,
`(d.quality_score IS NULL OR d.quality_score >= min)`. -/
def rowEligible (minQuality : Option ℚ) (r : Row) : Bool :=
  !r.is_flagged &&
    (match minQuality with
     | none => true
     | some q =>
       match r.quality_score with
       | none => true
       | some s => q ≤ s)

/-- `fetch_training_data` (worker.py:178-204) as a filter over the table
contents.  The optional `max_samples` cap (`ORDER BY RANDOM() LIMIT`) only
truncates this result and is outside the filtering claims, so it is not
modelled. -/
def fetch_training_data (minQuality : Option ℚ) (rows : List Row) : List Row :=
  rows.filter (rowEligible minQuality)

/-- `split_idx = int(len(drawings) * 0.8)` (worker.py:434); exact floor of
`0.8 * n` for every realistic `n`. -/
def splitIdx (n : Nat) : Nat := n * 8 / 10

/-- `train_drawings = drawings[:split_idx]` (worker.py:435), applied to the
shuffled candidate list. -/
def train_split (l : List Row) : List Row := l.take (splitIdx l.length)

/-- `val_drawings = drawings[split_idx:]` (worker.py:436). -/
def val_split (l : List Row) : List Row := l.drop (splitIdx l.length)

end ScaleAI

namespace Quality

/-- One sampled point of a stroke (`pt['x']`, `pt['y']`; pressure and
timestamp are never read by the scorer). -/
structure Point where
  x : ℚ
  y : ℚ
  deriving DecidableEq, Repr

/-- One stroke: its list of points. -/
structure Stroke where
  points : List Point
  deriving DecidableEq, Repr

/-- The stroke-data payload consumed by `QualityScorer` (quality.py:26-34),
with the library defaults for absent fields already applied
(`canvas {'width': 400, 'height': 400}`, `duration_ms 0`). -/
structure StrokeData where
  strokes : List Stroke
  canvasWidth : ℚ := 400
  canvasHeight : ℚ := 400
  duration_ms : ℚ := 0
  deriving Repr

/-- All points of all strokes, in order. -/
def allPoints (d : StrokeData) : List Point :=
  (d.strokes.map Stroke.points).flatten

/-- `self.total_points` (quality.py:41-49). -/
def totalPoints (d : StrokeData) : Nat := (allPoints d).length

/-- The running min/max fold of `_compute_metrics` (quality.py:42-60):
`(min_x, max_x, min_y, max_y)`, all `0` for an empty drawing. -/
def bboxBounds (d : StrokeData) : ℚ × ℚ × ℚ × ℚ :=
  match allPoints d with
  | [] => (0, 0, 0, 0)
  | p :: ps =>
    ps.foldl
      (fun b q => (min b.1 q.x, max b.2.1 q.x, min b.2.2.1 q.y, max b.2.2.2 q.y))
      (p.x, p.x, p.y, p.y)

/-- `self.bbox_width = max(0, max_x - min_x)` (quality.py:63). -/
def bboxWidth (d : StrokeData) : ℚ := max 0 ((bboxBounds d).2.1 - (bboxBounds d).1)

/-- `self.bbox_height = max(0, max_y - min_y)` (quality.py:64). -/
def bboxHeight (d : StrokeData) : ℚ :=
  max 0 ((bboxBounds d).2.2.2 - (bboxBounds d).2.2.1)

/-- Length of one polyline segment, `math.sqrt(dx*dx + dy*dy)`
(quality.py:75-77).  The float square root is modelled by the rational
square-root approximation; every consumer only compares the result against
thresholds. -/
def segLen (p q : Point) : ℚ :=
  Rat.sqrt ((q.x - p.x) * (q.x - p.x) + (q.y - p.y) * (q.y - p.y))

/-- Sum of segment lengths along one stroke's points. -/
def pathInk : List Point → ℚ
  | p :: q :: rest => segLen p q + pathInk (q :: rest)
  | _ => 0

/-- `self.total_ink = _calculate_ink_length()` (quality.py:69-78). -/
def totalInk (d : StrokeData) : ℚ := (d.strokes.map (fun s => pathInk s.points)).sum

/-- `check_stroke_count` (quality.py:80-96).  Thresholds: `MIN_STROKES = 1`,
`MAX_STROKES = 20`. -/
def check_stroke_count (d : StrokeData) : ℚ × String :=
  let count := d.strokes.length
  if count == 0 then (0, "No strokes")
  else if count < 1 then (3/10, "Too few strokes (" ++ toString count ++ ")")
  else if count > 20 then (1/2, "Too many strokes (" ++ toString count ++ ")")
  else if count ≤ 10 then (1, "Good stroke count")
  else (max (1/2) (1 - ((count - 10 : Nat) : ℚ) * (5/100)),
        "High stroke count (" ++ toString count ++ ")")

/-- `check_point_count` (quality.py:98-105).  Thresholds:
`MIN_TOTAL_POINTS = 5`, `MAX_TOTAL_POINTS = 2000`. -/
def check_point_count (d : StrokeData) : ℚ × String :=
  if totalPoints d < 5 then
    (2/10, "Too few points (" ++ toString (totalPoints d) ++ ")")
  else if totalPoints d > 2000 then
    (4/10, "Too many points (" ++ toString (totalPoints d) ++ ")")
  else (1, "Good point count")

/-- `check_duration` (quality.py:107-120).  Thresholds:
`MIN_DURATION_MS = 200`, `MAX_DURATION_MS = 60000`. -/
def check_duration (d : StrokeData) : ℚ × String :=
  if d.duration_ms < 200 then (3/10, "Too fast")
  else if d.duration_ms > 60000 then (7/10, "Very slow")
  else if 500 ≤ d.duration_ms ∧ d.duration_ms ≤ 10000 then (1, "Good duration")
  else if d.duration_ms < 500 then (6/10, "Quick drawing")
  else (8/10, "Slow drawing")

/-- `check_bounding_box` (quality.py:122-148).
`MIN_BOUNDING_BOX_RATIO = 0.1`. -/
def check_bounding_box (d : StrokeData) : ℚ × String :=
  if totalPoints d == 0 then (0, "Empty drawing")
  else
    let canvasArea := d.canvasWidth * d.canvasHeight
    let bboxArea := bboxWidth d * bboxHeight d
    if canvasArea == 0 then (1/2, "Invalid canvas")
    else
      let ratio := bboxArea / canvasArea
      if ratio < 1/10 then (4/10, "Drawing too small")
      else if ratio > 9/10 then (9/10, "Drawing spans most of canvas")
      else if bboxWidth d > 0 ∧ bboxHeight d > 0 then
        let aspect := bboxWidth d / bboxHeight d
        if aspect < 1/10 ∨ aspect > 10 then (6/10, "Extreme aspect ratio")
        else (1, "Good bounding box")
      else (1, "Good bounding box")

/-- `check_ink_coverage` (quality.py:150-171).  `MIN_COVERAGE = 0.01`; the
upper scribbling cutoff in the code is the literal `5.0`. -/
def check_ink_coverage (d : StrokeData) : ℚ × String :=
  if totalPoints d == 0 then (0, "No ink")
  else
    let canvasDiagonal :=
      Rat.sqrt (d.canvasWidth * d.canvasWidth + d.canvasHeight * d.canvasHeight)
    if canvasDiagonal == 0 then (1/2, "Invalid canvas")
    else
      let coverageRatio := totalInk d / canvasDiagonal
      if coverageRatio < 1/100 then (3/10, "Very little ink")
      else if coverageRatio > 5 then (4/10, "Excessive ink")
      else (1, "Good ink coverage")

/-- The issue predicate of `check_stroke_quality` (quality.py:180-191): a
stroke with fewer than 2 points, or one whose points are all identical. -/
def strokeIssue (s : Stroke) : Bool :=
  s.points.length < 2 ||
    (s.points.length ≥ 2 &&
      (s.points.map fun p => (p.x, p.y)).dedup.length == 1)

/-- `check_stroke_quality` (quality.py:173-198).  The issue messages are
abstracted to a fixed text; only their count drives the score. -/
def check_stroke_quality (d : StrokeData) : ℚ × String :=
  if d.strokes.isEmpty then (0, "No strokes")
  else
    let issues := (d.strokes.filter strokeIssue).length
    if issues > 0 then
      if issues > 3 then (3/10, toString issues ++ " stroke issues")
      else (6/10, "stroke issues")
    else (1, "Good stroke quality")

/-- Python's `round(x, 1)`, modelled by round-to-nearest tenths (the float
version breaks exact ties to even; no claim depends on tie direction). -/
def roundTenth (x : ℚ) : ℚ := ((round (10 * x) : ℤ) : ℚ) / 10

/-- One entry of the `checks` list (quality.py:238-245). -/
structure CheckResult where
  name : String
  score : ℚ
  message : String
  deriving Repr

/-- The structure returned by `calculate_score` (quality.py:255-268).  The
`metrics` summary keeps the numeric fields as name/value pairs. -/
structure QualityResult where
  score : ℚ
  passed : Bool
  checks : List CheckResult
  recommendation : String
  metrics : List (String × ℚ)
  deriving Repr

/-- The local `final_score` of `calculate_score` (quality.py:230-235):
weighted average of the six checks (weights 1, 1, 0.5, 1.5, 1, 1; total
weight 6), scaled to 0-100, before rounding. -/
def final_score (d : StrokeData) : ℚ :=
  (1 * (check_stroke_count d).1 + 1 * (check_point_count d).1 +
   (1/2) * (check_duration d).1 + (3/2) * (check_bounding_box d).1 +
   1 * (check_ink_coverage d).1 + 1 * (check_stroke_quality d).1) / 6 * 100

/-- `QualityScorer.calculate_score` (quality.py:200-268). -/
def calculate_score (d : StrokeData) : QualityResult :=
  { score := roundTenth (final_score d)
    passed := decide (50 ≤ final_score d)
    checks :=
      [⟨"stroke_count", roundTenth ((check_stroke_count d).1 * 100),
        (check_stroke_count d).2⟩,
       ⟨"point_count", roundTenth ((check_point_count d).1 * 100),
        (check_point_count d).2⟩,
       ⟨"duration", roundTenth ((check_duration d).1 * 100),
        (check_duration d).2⟩,
       ⟨"bounding_box", roundTenth ((check_bounding_box d).1 * 100),
        (check_bounding_box d).2⟩,
       ⟨"ink_coverage", roundTenth ((check_ink_coverage d).1 * 100),
        (check_ink_coverage d).2⟩,
       ⟨"stroke_quality", roundTenth ((check_stroke_quality d).1 * 100),
        (check_stroke_quality d).2⟩]
    recommendation :=
      if 70 ≤ final_score d then "Include in training"
      else if 50 ≤ final_score d then "Review manually"
      else "Exclude from training"
    metrics :=
      [("stroke_count", (d.strokes.length : ℚ)),
       ("total_points", (totalPoints d : ℚ)),
       ("duration_ms", d.duration_ms),
       ("bbox_width", roundTenth (bboxWidth d)),
       ("bbox_height", roundTenth (bboxHeight d)),
       ("total_ink", roundTenth (totalInk d))] }

/-- `score_drawing` (quality.py:271-274). -/
def score_drawing (d : StrokeData) : QualityResult := calculate_score d

end Quality

namespace ScaleAI

/-- Every event emitted inside the epoch loop is a `phase = training`
progress write. -/
lemma trainFrom_events (c : Nat → Bool) (a : Nat → ℚ) :
    ∀ (rem e : Nat) (best : ℚ) (bestSt : Option Nat),
      ∀ ev ∈ (trainFrom c a rem e best bestSt).1,
        ∃ ep, ev = Event.progressWrite Phase.training ep := by
  intro rem
  induction rem with
  | zero =>
    intro e best bestSt ev hev
    simp [trainFrom] at hev
  | succ r ih =>
    intro e best bestSt ev hev
    by_cases hc : c e
    · simp [trainFrom, hc] at hev
    · simp only [trainFrom, hc, if_false, Bool.false_eq_true, List.mem_cons] at hev
      rcases hev with hev | hev
      · exact ⟨e + 1, hev⟩
      · by_cases hlt : best < a e
        · simp only [hlt, if_true] at hev
          exact ih (e + 1) (a e) (some e) ev hev
        · simp only [hlt, if_false] at hev
          exact ih (e + 1) best bestSt ev hev

/-- The events of `train_model` are exactly the epoch loop's events. -/
lemma train_model_fst (epochs : Nat) (c : Nat → Bool) (a : Nat → ℚ) :
    (train_model epochs c a).1 = (trainFrom c a epochs 0 0 none).1 := by
  unfold train_model
  rcases h : (trainFrom c a epochs 0 0 none).2 with m | ⟨best, bestSt⟩
  · simp [h]
  · cases epochs with
    | zero => simp [h]
    | succ k => cases bestSt <;> simp [h]

/-- Every event of the epoch loop's trace is a progress write, hence not a
status write. -/
lemma trainFrom_all_not_status (c : Nat → Bool) (a : Nat → ℚ)
    (rem e : Nat) (best : ℚ) (bestSt : Option Nat) :
    ((trainFrom c a rem e best bestSt).1.all fun ev => !ev.isStatusWrite) = true := by
  rw [List.all_eq_true]
  intro ev hev
  rcases trainFrom_events c a rem e best bestSt ev hev with ⟨ep, rfl⟩
  rfl

/-- The `train_model` trace contains no status write. -/
lemma train_model_all_not_status (epochs : Nat) (c : Nat → Bool) (a : Nat → ℚ) :
    ((train_model epochs c a).1.all fun ev => !ev.isStatusWrite) = true := by
  rw [train_model_fst]
  exact trainFrom_all_not_status c a epochs 0 0 none

/-- After the head of the trace (the single `running` write, when present),
`process_job` never writes `running` again. -/
lemma run_write_only_head (jobId : String) (epochs : Nat) (ic : Bool) (n : Nat)
    (c : Nat → Bool) (a : Nat → ℚ) (saveErr : Option String) :
    (((process_job jobId epochs ic n c a saveErr).1.drop 1).all
      fun ev => !ev.isRunningWrite) = true := by
  have htrain : ((train_model epochs c a).1.all fun ev => !ev.isRunningWrite) = true := by
    rw [List.all_eq_true]
    intro ev hev
    rw [train_model_fst] at hev
    rcases trainFrom_events c a epochs 0 0 none ev hev with ⟨ep, rfl⟩
    rfl
  unfold process_job
  by_cases hic : ic
  · simp [hic]
  · simp only [hic, if_false, Bool.false_eq_true]
    by_cases hn : n < 10
    · simp only [hn, if_true, handleJobError]
      by_cases hcc :
          containsCancelled ("Not enough training data: " ++ toString n ++ " drawings") <;>
        simp [hcc, update_job_status, update_job_progress, Event.isRunningWrite]
    · simp only [hn, if_false, Bool.false_eq_true]
      rcases htm : train_model epochs c a with ⟨tevs, r⟩
      have htevs : ∀ x ∈ tevs, x.isRunningWrite = false := by
        rw [htm, List.all_eq_true] at htrain
        intro x hx
        simpa using htrain x hx
      rcases r with m | ⟨finalModel, bestAcc⟩
      · simp only [handleJobError]
        by_cases hcc : containsCancelled m <;>
          (simp [hcc, update_job_status, update_job_progress, Event.isRunningWrite]
           intro x hx
           exact htevs x hx)
      · rcases saveErr with _ | m
        · simp [update_job_status, update_job_progress, Event.isRunningWrite]
          intro x hx
          exact htevs x hx
        · simp only [handleJobError]
          by_cases hcc : containsCancelled m <;>
            (simp [hcc, update_job_status, update_job_progress, Event.isRunningWrite]
             intro x hx
             exact htevs x hx)

/-- C1: the job status is monotonic along pending → running → terminal: in
every write trace `process_job` can produce, no write performed after a
terminal (`completed`/`failed`/`cancelled`) status write is a `running`
status write, so the orchestrator never moves a job from a terminal state
back to `running`. -/
theorem status_monotonic (jobId : String) (epochs : Nat) (ic : Bool) (n : Nat)
    (c : Nat → Bool) (a : Nat → ℚ) (saveErr : Option String)
    (i : Nat) (ev : Event)
    (_hi : (process_job jobId epochs ic n c a saveErr).1[i]? = some ev)
    (_hterm : ev.isTerminalWrite = true) :
    (((process_job jobId epochs ic n c a saveErr).1.drop (i + 1)).all
      fun ev' => !ev'.isRunningWrite) = true := by
  have hall := run_write_only_head jobId epochs ic n c a saveErr
  rw [List.all_eq_true] at hall
  rw [List.all_eq_true]
  intro ev' hev'
  have hmem : ev' ∈ (process_job jobId epochs ic n c a saveErr).1.drop 1 := by
    have h1 : (process_job jobId epochs ic n c a saveErr).1.drop (i + 1) =
        ((process_job jobId epochs ic n c a saveErr).1.drop 1).drop i := by
      rw [List.drop_drop]
      congr 1
      omega
    rw [h1] at hev'
    exact List.mem_of_mem_drop hev'
  exact hall ev' hmem

/-- Witness for C1 at a concrete trace: the 9-drawing run writes `failed`
at index 2, and no `running` write follows it. -/
theorem status_monotonic_witness :
    ((process_job "j" 1 false 9 (fun _ => false) (fun _ => 0) none).1[2]? =
        some (Event.statusWrite Status.failed
          (some "Not enough training data: 9 drawings") none none)) ∧
    (((process_job "j" 1 false 9 (fun _ => false) (fun _ => 0) none).1.drop 3).all
      fun ev' => !ev'.isRunningWrite) = true := by
  refine ⟨by decide, ?_⟩
  exact status_monotonic "j" 1 false 9 (fun _ => false) (fun _ => 0) none
    2 (Event.statusWrite Status.failed
      (some "Not enough training data: 9 drawings") none none)
    (by decide) (by decide)

/-- If the cancellation probe first reads `cancelled` at epoch `t`, the epoch
loop raises the cancellation exception there, having emitted exactly one
per-epoch progress event for each of the epochs before `t`. -/
lemma trainFrom_cancel (c : Nat → Bool) (a : Nat → ℚ) :
    ∀ (rem e t : Nat) (best : ℚ) (bestSt : Option Nat),
      e ≤ t → t < e + rem → (∀ k, e ≤ k → k < t → c k = false) → c t = true →
      (trainFrom c a rem e best bestSt).2 =
          Except.error "Training cancelled by user" ∧
        (trainFrom c a rem e best bestSt).1.length = t - e := by
  intro rem
  induction rem with
  | zero =>
    intro e t best bestSt h1 h2 _ _
    omega
  | succ r ih =>
    intro e t best bestSt h1 h2 hpre hct
    by_cases het : e = t
    · subst het
      simp [trainFrom, hct]
    · have hce : c e = false := hpre e le_rfl (by omega)
      have hrec := fun best' bestSt' =>
        ih (e + 1) t best' bestSt' (by omega) (by omega)
          (fun k hk1 hk2 => hpre k (by omega) hk2) hct
      by_cases hlt : best < a e
      · have h := hrec (a e) (some e)
        simp only [trainFrom, hce, Bool.false_eq_true, if_false, hlt, if_true]
        refine ⟨h.1, ?_⟩
        simp only [List.length_cons, h.2]
        omega
      · have h := hrec best bestSt
        simp only [trainFrom, hce, Bool.false_eq_true, if_false, hlt]
        refine ⟨h.1, ?_⟩
        simp only [List.length_cons, h.2]
        omega

/-- C2: if the status read at the pre-epoch cancellation check of epoch `e`
(0-based; all earlier checks read a non-cancelled status) is `cancelled`,
then exactly `e` epochs ran — none at or after the check — and the whole
trace of the job contains no `failed` write and no `completed` write. -/
theorem cancelled_probe_stops_job (jobId : String) (epochs n e : Nat)
    (c : Nat → Bool) (a : Nat → ℚ) (saveErr : Option String)
    (hn : 10 ≤ n) (he : e < epochs) (hc : c e = true)
    (hmin : ∀ k, k < e → c k = false) :
    trainingEvents (process_job jobId epochs false n c a saveErr).1 = e ∧
      ((process_job jobId epochs false n c a saveErr).1.all
        fun ev => !(ev.isFailedWrite || ev.isCompletedWrite)) = true := by
  have hcancel := trainFrom_cancel c a epochs 0 e 0 none (Nat.zero_le e)
    (by omega) (fun k _ hk2 => hmin k hk2) hc
  have htevs := trainFrom_events c a epochs 0 0 none
  have htm : train_model epochs c a =
      ((trainFrom c a epochs 0 0 none).1,
        Except.error "Training cancelled by user") := by
    simp only [train_model]
    rw [hcancel.1]
  have hcc : containsCancelled "Training cancelled by user" = true := by decide
  have hn' : ¬n < 10 := by omega
  unfold process_job
  simp only [Bool.false_eq_true, if_false, hn', htm, handleJobError, hcc, if_true]
  constructor
  · unfold trainingEvents
    rw [List.filter_append]
    have h1 : (trainFrom c a epochs 0 0 none).1.filter
        (fun ev =>
          match ev with
          | Event.progressWrite Phase.training _ => true
          | _ => false) = (trainFrom c a epochs 0 0 none).1 := by
      rw [List.filter_eq_self]
      intro ev hev
      rcases htevs ev hev with ⟨ep, rfl⟩
      rfl
    rw [h1]
    simp [update_job_status, update_job_progress, hcancel.2]
  · rw [List.all_append, Bool.and_eq_true]
    constructor
    · simp [update_job_status, update_job_progress, Event.isFailedWrite,
        Event.isCompletedWrite]
    · rw [List.all_eq_true]
      intro ev hev
      rcases htevs ev hev with ⟨ep, rfl⟩
      rfl

/-- Witness for C2: with the probe reading `cancelled` at epoch index 1 of a
3-epoch job, exactly one epoch ran and the trace holds no `failed` or
`completed` write. -/
theorem cancelled_probe_stops_job_witness :
    trainingEvents
        (process_job "j" 3 false 10 (fun k => k == 1) (fun _ => 0) none).1 = 1 ∧
      ((process_job "j" 3 false 10 (fun k => k == 1) (fun _ => 0) none).1.all
        fun ev => !(ev.isFailedWrite || ev.isCompletedWrite)) = true :=
  cancelled_probe_stops_job "j" 3 10 1 (fun k => k == 1) (fun _ => 0) none
    (by decide) (by decide) (by decide) (by decide)

/-- Once the data-size check passes, the trace starts with the `running`
write and the `loading_data` / `preparing_data` progress writes. -/
lemma process_job_reaches_preparing (jobId : String) (epochs n : Nat)
    (c : Nat → Bool) (a : Nat → ℚ) (saveErr : Option String) (hn : ¬n < 10) :
    ∃ rest, (process_job jobId epochs false n c a saveErr).1 =
      [update_job_status Status.running none none (some Phase.initializing),
       update_job_progress Phase.loading_data 0,
       update_job_progress Phase.preparing_data 0] ++ rest := by
  unfold process_job
  simp only [Bool.false_eq_true, if_false, hn]
  rcases htm : train_model epochs c a with ⟨tevs, r⟩
  rcases r with m | ⟨finalModel, bestAcc⟩
  · simp only [handleJobError]
    by_cases hcc : containsCancelled m
    · simp only [hcc, if_true]
      exact ⟨tevs, by simp⟩
    · simp only [hcc, Bool.false_eq_true, if_false]
      exact ⟨tevs ++ [update_job_status Status.failed (some m) none none], by simp⟩
  · rcases saveErr with _ | m
    · exact ⟨tevs ++ [update_job_progress Phase.saving_model epochs,
        Event.artifactPut (jobId ++ ".pt") finalModel,
        Event.modelRecord jobId (jobId ++ ".pt") bestAcc,
        update_job_status Status.completed none (some (jobId ++ ".pt")) none],
        by simp⟩
    · simp only [handleJobError]
      by_cases hcc : containsCancelled m
      · simp only [hcc, if_true]
        exact ⟨tevs ++ [update_job_progress Phase.saving_model epochs], by simp⟩
      · simp only [hcc, Bool.false_eq_true, if_false]
        exact ⟨tevs ++ [update_job_progress Phase.saving_model epochs,
          update_job_status Status.failed (some m) none none], by simp⟩

/-- C4: a candidate dataset with fewer than 10 records makes the job fail
immediately with the descriptive message, with no training-phase progress
write and no epoch run; the whole trace is the `running` write, the
`loading_data` progress write, and the `failed` terminal write.  With
exactly 10 records the job proceeds past the check into data preparation. -/
theorem insufficient_data_fails (jobId : String) (epochs n : Nat)
    (c : Nat → Bool) (a : Nat → ℚ) (saveErr : Option String) (hn : n < 10) :
    (process_job jobId epochs false n c a saveErr =
      ([update_job_status Status.running none none (some Phase.initializing),
        update_job_progress Phase.loading_data 0,
        update_job_status Status.failed
          (some ("Not enough training data: " ++ toString n ++ " drawings"))
          none none],
       Except.error ("Not enough training data: " ++ toString n ++ " drawings"))) ∧
    trainingEvents (process_job jobId epochs false n c a saveErr).1 = 0 ∧
    ((process_job jobId epochs false 10 c a saveErr).1.any
      fun ev => ev == update_job_progress Phase.preparing_data 0) = true := by
  have hcc : containsCancelled
      ("Not enough training data: " ++ toString n ++ " drawings") = false := by
    interval_cases n <;> decide
  have htrace : process_job jobId epochs false n c a saveErr =
      ([update_job_status Status.running none none (some Phase.initializing),
        update_job_progress Phase.loading_data 0,
        update_job_status Status.failed
          (some ("Not enough training data: " ++ toString n ++ " drawings"))
          none none],
       Except.error ("Not enough training data: " ++ toString n ++ " drawings")) := by
    unfold process_job
    simp [hn, handleJobError, hcc, update_job_status, update_job_progress]
  refine ⟨htrace, ?_, ?_⟩
  · rw [htrace]
    rfl
  · rcases process_job_reaches_preparing jobId epochs 10 c a saveErr (by omega)
      with ⟨rest, hr⟩
    rw [hr]
    simp [update_job_progress]

/-- Witness for C4 at `n = 9`. -/
theorem insufficient_data_fails_witness :
    (process_job "j" 2 false 9 (fun _ => false) (fun _ => 0) none =
      ([update_job_status Status.running none none (some Phase.initializing),
        update_job_progress Phase.loading_data 0,
        update_job_status Status.failed
          (some "Not enough training data: 9 drawings") none none],
       Except.error "Not enough training data: 9 drawings")) ∧
    trainingEvents (process_job "j" 2 false 9 (fun _ => false) (fun _ => 0) none).1 = 0 ∧
    ((process_job "j" 2 false 10 (fun _ => false) (fun _ => 0) none).1.any
      fun ev => ev == update_job_progress Phase.preparing_data 0) = true :=
  insufficient_data_fails "j" 2 9 (fun _ => false) (fun _ => 0) none (by decide)

/-- C6: a message for a job whose stored status already reads `cancelled`
produces an empty write trace — no job-record, artifact-store or registry
write — and the message is acknowledged. -/
theorem already_cancelled_noop (jobId : String) (epochs n : Nat)
    (c : Nat → Bool) (a : Nat → ℚ) (saveErr : Option String) :
    (process_job jobId epochs true n c a saveErr).1 = [] ∧
      messageAck (process_job jobId epochs true n c a saveErr).2 = true :=
  ⟨rfl, rfl⟩

/-- Invariant of the best-checkpoint fold: when no probe reads `cancelled`,
the loop returns normally and `(best_val_acc, best_model_state)` describe
the first epoch attaining the running maximum of the accuracies (with the
initial best of `0` never replaced by a tie). -/
lemma trainFrom_best_spec (c : Nat → Bool) (a : Nat → ℚ) :
    ∀ (rem e : Nat) (best : ℚ) (bestSt : Option Nat),
      (∀ k, e ≤ k → k < e + rem → c k = false) →
      (∀ j, j < e → a j ≤ best) →
      0 ≤ best →
      (bestSt = none → best = 0) →
      (∀ i, bestSt = some i → i < e ∧ a i = best ∧ ∀ j, j < i → a j < best) →
      ∃ best' bestSt',
        (trainFrom c a rem e best bestSt).2 = Except.ok (best', bestSt') ∧
        (∀ j, j < e + rem → a j ≤ best') ∧
        0 ≤ best' ∧
        (bestSt' = none → best' = 0) ∧
        (∀ i, bestSt' = some i →
          i < e + rem ∧ a i = best' ∧ ∀ j, j < i → a j < best') := by
  intro rem
  induction rem with
  | zero =>
    intro e best bestSt _ hub hnn hnone hsome
    exact ⟨best, bestSt, rfl, fun j hj => hub j (by omega), hnn, hnone,
      fun i hi => ⟨(hsome i hi).1.trans_le (by omega), (hsome i hi).2⟩⟩
  | succ r ih =>
    intro e best bestSt hc hub hnn hnone hsome
    have hce : c e = false := hc e le_rfl (by omega)
    by_cases hlt : best < a e
    · have := ih (e + 1) (a e) (some e)
        (fun k hk1 hk2 => hc k (by omega) (by omega))
        (fun j hj => by
          rcases Nat.lt_succ_iff_lt_or_eq.mp hj with hj' | rfl
          · exact (hub j hj').trans hlt.le
          · exact le_rfl)
        (hnn.trans hlt.le)
        (fun h => by cases h)
        (fun i hi => by
          cases Option.some.injEq .. ▸ hi
          exact ⟨Nat.lt_succ_self e, rfl, fun j hj => (hub j hj).trans_lt hlt⟩)
      rcases this with ⟨best', bestSt', hres, hub', hnn', hnone', hsome'⟩
      refine ⟨best', bestSt', ?_, ?_, hnn', hnone', ?_⟩
      · simp only [trainFrom, hce, Bool.false_eq_true, if_false, hlt, if_true]
        exact hres
      · intro j hj
        exact hub' j (by omega)
      · intro i hi
        have h := hsome' i hi
        exact ⟨by omega, h.2⟩
    · have := ih (e + 1) best bestSt
        (fun k hk1 hk2 => hc k (by omega) (by omega))
        (fun j hj => by
          rcases Nat.lt_succ_iff_lt_or_eq.mp hj with hj' | rfl
          · exact hub j hj'
          · exact le_of_not_lt hlt)
        hnn hnone
        (fun i hi => by
          have h := hsome i hi
          exact ⟨by omega, h.2⟩)
      rcases this with ⟨best', bestSt', hres, hub', hnn', hnone', hsome'⟩
      refine ⟨best', bestSt', ?_, ?_, hnn', hnone', ?_⟩
      · simp only [trainFrom, hce, Bool.false_eq_true, if_false, hlt]
        exact hres
      · intro j hj
        exact hub' j (by omega)
      · intro i hi
        have h := hsome' i hi
        exact ⟨by omega, h.2⟩

/-- A full uncancelled run with at least one positive accuracy ends with the
best checkpoint reloaded: `train_model` returns the first epoch attaining
the maximum accuracy, together with that accuracy. -/
lemma train_model_full_run (epochs : Nat) (c : Nat → Bool) (a : Nat → ℚ)
    (hc : ∀ k, k < epochs → c k = false)
    (hpos : ∃ e, e < epochs ∧ 0 < a e) :
    ∃ i, i < epochs ∧
      (train_model epochs c a).2 = Except.ok (some i, a i) ∧
      (∀ j, j < epochs → a j ≤ a i) ∧ (∀ j, j < i → a j < a i) := by
  rcases hpos with ⟨e, he, hae⟩
  have := trainFrom_best_spec c a epochs 0 0 none
    (fun k _ hk2 => hc k (by omega))
    (fun j hj => absurd hj (Nat.not_lt_zero j))
    le_rfl (fun _ => rfl)
    (fun i hi => by cases hi)
  rcases this with ⟨best', bestSt', hres, hub', hnn', hnone', hsome'⟩
  rcases hSt : bestSt' with _ | i
  · exfalso
    have hb0 : best' = 0 := hnone' hSt
    have := hub' e (by omega)
    rw [hb0] at this
    exact absurd (hae.trans_le this) (lt_irrefl 0)
  · have h := hsome' i hSt
    refine ⟨i, by omega, ?_, ?_, ?_⟩
    · cases hep : epochs with
      | zero => omega
      | succ k =>
        simp only [train_model, hep]
        rw [hep] at hres
        rw [hres, hSt, h.2.1]
    · intro j hj
      rw [h.2.1]
      exact hub' j (by omega)
    · intro j hj
      rw [h.2.1]
      exact h.2.2 j hj


/-- C3 (amended): in a run that finishes all its epochs with at least one
epoch whose validation accuracy exceeds the initial best of 0, the persisted
model blob is the checkpoint of the first epoch attaining the maximum
validation accuracy — a later epoch tying the current best does not replace
it.  (Without such an epoch the `if best_model_state:` guard keeps the final
epoch's weights instead; see the counterexample.) -/
theorem best_checkpoint_selected (jobId : String) (epochs n : Nat)
    (c : Nat → Bool) (a : Nat → ℚ)
    (hn : 10 ≤ n) (hc : ∀ k, k < epochs → c k = false)
    (hpos : ∃ e, e < epochs ∧ 0 < a e) :
    ∃ i, i < epochs ∧
      ((process_job jobId epochs false n c a none).1.any
        fun ev => ev == Event.artifactPut (jobId ++ ".pt") (some i)) = true ∧
      (∀ j, j < epochs → a j ≤ a i) ∧ (∀ j, j < i → a j < a i) ∧
      messageAck (process_job jobId epochs false n c a none).2 = true := by
  rcases train_model_full_run epochs c a hc hpos with ⟨i, hi, hres, hub, hstrict⟩
  have hn' : ¬n < 10 := by omega
  rcases htm : train_model epochs c a with ⟨tevs, r⟩
  have hr : r = Except.ok (some i, a i) := by
    rw [htm] at hres
    exact hres
  subst hr
  refine ⟨i, hi, ?_, hub, hstrict, ?_⟩
  · unfold process_job
    simp only [Bool.false_eq_true, if_false, hn', htm]
    simp [update_job_status, update_job_progress]
  · unfold process_job
    simp only [Bool.false_eq_true, if_false, hn', htm]
    rfl

/-- Counterexample to C3 as stated: a 2-epoch run whose validation accuracy
is 0 in both epochs finishes all its epochs, yet the persisted checkpoint is
the final epoch's (epoch index 1), not the first occurrence of the maximum
(epoch index 0): no accuracy ever strictly exceeds the initial best of 0.0,
so `best_model_state` stays `None` and the final weights are kept. -/
theorem best_checkpoint_claim_false :
    ((process_job "j" 2 false 10 (fun _ => false) (fun _ => 0) none).1.any
      fun ev => ev == Event.artifactPut "j.pt" (some 1)) = true ∧
    ((process_job "j" 2 false 10 (fun _ => false) (fun _ => 0) none).1.any
      fun ev => ev == Event.artifactPut "j.pt" (some 0)) = false ∧
    messageAck (process_job "j" 2 false 10 (fun _ => false) (fun _ => 0) none).2 =
      true := by
  refine ⟨by decide, by decide, by decide⟩

/-- Witness for C3 (amended) on the accuracy sequence [0.5, 0.7, 0.6, 0.7]:
some epoch is persisted that attains the maximum and strictly dominates all
earlier epochs (it is epoch index 1, the spec's "epoch 2"). -/
theorem best_checkpoint_selected_witness :
    ∃ i, i < 4 ∧
      ((process_job "j" 4 false 10 (fun _ => false)
          (fun e => [(1 : ℚ)/2, 7/10, 3/5, 7/10].getD e 0) none).1.any
        fun ev => ev == Event.artifactPut "j.pt" (some i)) = true ∧
      (∀ j, j < 4 → [(1 : ℚ)/2, 7/10, 3/5, 7/10].getD j 0 ≤
        [(1 : ℚ)/2, 7/10, 3/5, 7/10].getD i 0) ∧
      (∀ j, j < i → [(1 : ℚ)/2, 7/10, 3/5, 7/10].getD j 0 <
        [(1 : ℚ)/2, 7/10, 3/5, 7/10].getD i 0) ∧
      messageAck (process_job "j" 4 false 10 (fun _ => false)
        (fun e => [(1 : ℚ)/2, 7/10, 3/5, 7/10].getD e 0) none).2 = true :=
  best_checkpoint_selected "j" 4 10 (fun _ => false)
    (fun e => [(1 : ℚ)/2, 7/10, 3/5, 7/10].getD e 0)
    (by omega) (fun k _ => rfl)
    ⟨1, by omega, by norm_num [List.getD]⟩


/-- When the error message names a cancellation, the except clause performs
no write. -/
lemma handleJobError_cancelled (evs : List Event) (m : String)
    (hm : containsCancelled m = true) :
    handleJobError evs m = (evs, Except.error m) := by
  simp [handleJobError, hm]

/-- Otherwise the except clause appends exactly the `failed` terminal write. -/
lemma handleJobError_not_cancelled (evs : List Event) (m : String)
    (hm : containsCancelled m = false) :
    handleJobError evs m =
      (evs ++ [update_job_status Status.failed (some m) none none],
       Except.error m) := by
  simp [handleJobError, hm]

/-- Branch equation: too few drawings. -/
lemma process_job_eq_small (jobId : String) (epochs n : Nat) (c : Nat → Bool)
    (a : Nat → ℚ) (saveErr : Option String) (hn : n < 10) :
    process_job jobId epochs false n c a saveErr =
      handleJobError
        [update_job_status Status.running none none (some Phase.initializing),
         update_job_progress Phase.loading_data 0]
        ("Not enough training data: " ++ toString n ++ " drawings") := by
  unfold process_job
  rw [if_neg (by simp), if_pos hn]

/-- Branch equation: the training loop raises with message `m`. -/
lemma process_job_eq_trainError (jobId : String) (epochs n : Nat)
    (c : Nat → Bool) (a : Nat → ℚ) (saveErr : Option String)
    (tevs : List Event) (m : String) (hn : ¬n < 10)
    (htm : train_model epochs c a = (tevs, Except.error m)) :
    process_job jobId epochs false n c a saveErr =
      handleJobError
        ([update_job_status Status.running none none (some Phase.initializing),
          update_job_progress Phase.loading_data 0,
          update_job_progress Phase.preparing_data 0] ++ tevs) m := by
  unfold process_job
  rw [if_neg (by simp), if_neg hn, htm]
  rfl

/-- Branch equation: training finished but the artifact upload raises. -/
lemma process_job_eq_saveError (jobId : String) (epochs n : Nat)
    (c : Nat → Bool) (a : Nat → ℚ) (tevs : List Event)
    (finalModel : Option Nat) (bestAcc : ℚ) (m : String) (hn : ¬n < 10)
    (htm : train_model epochs c a = (tevs, Except.ok (finalModel, bestAcc))) :
    process_job jobId epochs false n c a (some m) =
      handleJobError
        ([update_job_status Status.running none none (some Phase.initializing),
          update_job_progress Phase.loading_data 0,
          update_job_progress Phase.preparing_data 0] ++ tevs ++
         [update_job_progress Phase.saving_model epochs]) m := by
  unfold process_job
  rw [if_neg (by simp), if_neg hn, htm]
  rfl

/-- Branch equation: full success. -/
lemma process_job_eq_success (jobId : String) (epochs n : Nat)
    (c : Nat → Bool) (a : Nat → ℚ) (tevs : List Event)
    (finalModel : Option Nat) (bestAcc : ℚ) (hn : ¬n < 10)
    (htm : train_model epochs c a = (tevs, Except.ok (finalModel, bestAcc))) :
    process_job jobId epochs false n c a none =
      ([update_job_status Status.running none none (some Phase.initializing),
        update_job_progress Phase.loading_data 0,
        update_job_progress Phase.preparing_data 0] ++ tevs ++
       [update_job_progress Phase.saving_model epochs,
        Event.artifactPut (jobId ++ ".pt") finalModel,
        Event.modelRecord jobId (jobId ++ ".pt") bestAcc,
        update_job_status Status.completed none (some (jobId ++ ".pt")) none],
       Except.ok ()) := by
  unfold process_job
  rw [if_neg (by simp), if_neg hn, htm]
  simp

/-- C9: whenever `process_job` propagates an error whose message contains
the substring "cancelled" (case-insensitively) — whether or not the job was
really cancelled — it performs no terminal status write at all (no `failed`
write, nor any other terminal write), and the error reaches the queue
layer, which rejects the message. -/
theorem cancelled_error_message_skips_write (jobId : String) (epochs : Nat)
    (ic : Bool) (n : Nat) (c : Nat → Bool) (a : Nat → ℚ)
    (saveErr : Option String) (m : String)
    (hout : (process_job jobId epochs ic n c a saveErr).2 = Except.error m)
    (hm : containsCancelled m = true) :
    ((process_job jobId epochs ic n c a saveErr).1.all
      fun ev => !ev.isTerminalWrite) = true ∧
    messageAck (process_job jobId epochs ic n c a saveErr).2 = false := by
  refine ⟨?_, by rw [hout]; rfl⟩
  have htevs := trainFrom_events c a epochs 0 0 none
  rw [← train_model_fst] at htevs
  cases ic with
  | true => simp [process_job] at hout
  | false =>
    by_cases hn : n < 10
    · rw [process_job_eq_small jobId epochs n c a saveErr hn] at hout ⊢
      cases hcc : containsCancelled
          ("Not enough training data: " ++ toString n ++ " drawings") with
      | false =>
        rw [handleJobError_not_cancelled _ _ hcc] at hout
        have hmm : "Not enough training data: " ++ toString n ++ " drawings" = m := by
          simpa using hout
        rw [hmm] at hcc
        rw [hm] at hcc
        cases hcc
      | true =>
        rw [handleJobError_cancelled _ _ hcc]
        simp [update_job_status, update_job_progress, Event.isTerminalWrite]
    · rcases htm : train_model epochs c a with ⟨tevs, r⟩
      have htevs' : ∀ ev ∈ tevs, ∃ ep, ev = Event.progressWrite Phase.training ep := by
        rw [htm] at htevs
        exact htevs
      rcases r with m' | ⟨finalModel, bestAcc⟩
      · rw [process_job_eq_trainError jobId epochs n c a saveErr tevs m' hn htm]
          at hout ⊢
        cases hcc : containsCancelled m' with
        | false =>
          rw [handleJobError_not_cancelled _ _ hcc] at hout
          have hmm : m' = m := by simpa using hout
          rw [hmm] at hcc
          rw [hm] at hcc
          cases hcc
        | true =>
          rw [handleJobError_cancelled _ _ hcc]
          simp only [List.all_append, Bool.and_eq_true]
          constructor
          · simp [update_job_status, update_job_progress, Event.isTerminalWrite]
          · rw [List.all_eq_true]
            intro ev hev
            rcases htevs' ev hev with ⟨ep, rfl⟩
            rfl
      · rcases hse : saveErr with _ | m''
        · subst hse
          rw [process_job_eq_success jobId epochs n c a tevs finalModel bestAcc hn htm]
            at hout
          simp at hout
        · subst hse
          rw [process_job_eq_saveError jobId epochs n c a tevs finalModel bestAcc m'' hn htm]
            at hout ⊢
          cases hcc : containsCancelled m'' with
          | false =>
            rw [handleJobError_not_cancelled _ _ hcc] at hout
            have hmm : m'' = m := by simpa using hout
            rw [hmm] at hcc
            rw [hm] at hcc
            cases hcc
          | true =>
            rw [handleJobError_cancelled _ _ hcc]
            simp only [List.all_append, Bool.and_eq_true]
            constructor
            · constructor
              · simp [update_job_status, update_job_progress, Event.isTerminalWrite]
              · rw [List.all_eq_true]
                intro ev hev
                rcases htevs' ev hev with ⟨ep, rfl⟩
                rfl
            · simp [update_job_progress, Event.isTerminalWrite]

/-- Witness for C9: a probe that reads `cancelled` at epoch 0 raises
"Training cancelled by user"; the trace holds no terminal write and the
message is rejected. -/
theorem cancelled_error_message_skips_write_witness :
    ((process_job "j" 1 false 10 (fun _ => true) (fun _ => 0) none).1.all
      fun ev => !ev.isTerminalWrite) = true ∧
    messageAck (process_job "j" 1 false 10 (fun _ => true) (fun _ => 0) none).2 =
      false :=
  cancelled_error_message_skips_write "j" 1 false 10 (fun _ => true) (fun _ => 0)
    none "Training cancelled by user" rfl (by decide)

/-- All-true over a two-part append. -/
lemma all_append2 (p : Event → Bool) (l1 l2 : List Event)
    (h1 : l1.all p = true) (h2 : l2.all p = true) :
    (l1 ++ l2).all p = true := by
  rw [List.all_append, h1, h2]
  rfl

/-- All-true over a three-part append. -/
lemma all_append3 (p : Event → Bool) (l1 l2 l3 : List Event)
    (h1 : l1.all p = true) (h2 : l2.all p = true) (h3 : l3.all p = true) :
    (l1 ++ l2 ++ l3).all p = true := by
  rw [List.all_append, List.all_append, h1, h2, h3]
  rfl

/-- A Boolean no-completed-write certificate refutes membership of a
completed write. -/
lemma not_completed_of_all (l : List Event)
    (hall : (l.all fun ev => !ev.isCompletedWrite) = true) :
    ¬∃ ev ∈ l, ev.isCompletedWrite = true := by
  rw [List.all_eq_true] at hall
  rintro ⟨ev, hev, hc⟩
  have h := hall ev hev
  rw [hc] at h
  cases h

/-- The except clause never adds a `completed` write. -/
lemma handleJobError_all_not_completed (evs : List Event) (m : String)
    (h : (evs.all fun ev => !ev.isCompletedWrite) = true) :
    ((handleJobError evs m).1.all fun ev => !ev.isCompletedWrite) = true := by
  unfold handleJobError
  split
  · exact h
  · rw [List.all_append, h, Bool.true_and]
    rfl

/-- C7 (amended): a `completed` terminal write happens only in the success
branch, where the trace ends with the artifact upload, then the registry
insert, then the `completed` write — in that order; whenever the artifact
upload raises, the job is never marked `completed`; and when it raises with
a message that does not contain "cancelled" (case-insensitively) the job
transitions to `failed`.  (An upload error whose message does contain
"cancelled" skips the `failed` write; see the counterexample.) -/
theorem completed_write_ordering (jobId : String) (epochs : Nat) (ic : Bool)
    (n : Nat) (c : Nat → Bool) (a : Nat → ℚ) (saveErr : Option String) :
    ((∃ ev ∈ (process_job jobId epochs ic n c a saveErr).1,
        ev.isCompletedWrite = true) →
      ∃ pre finalModel bestAcc,
        (process_job jobId epochs ic n c a saveErr).1 =
          pre ++ [Event.artifactPut (jobId ++ ".pt") finalModel,
                  Event.modelRecord jobId (jobId ++ ".pt") bestAcc,
                  update_job_status Status.completed none
                    (some (jobId ++ ".pt")) none]) ∧
    (∀ m, saveErr = some m →
      ((process_job jobId epochs ic n c a saveErr).1.all
        fun ev => !ev.isCompletedWrite) = true) ∧
    (∀ m, saveErr = some m → containsCancelled m = false → ic = false →
      ¬n < 10 → (∀ k, k < epochs → c k = false) → 1 ≤ epochs →
      ((process_job jobId epochs ic n c a saveErr).1.any
        fun ev => ev.isFailedWrite) = true) := by
  have htevs := trainFrom_events c a epochs 0 0 none
  rw [← train_model_fst] at htevs
  rcases htm : train_model epochs c a with ⟨tevs, r⟩
  have htevs' : ∀ ev ∈ tevs, ∃ ep, ev = Event.progressWrite Phase.training ep := by
    rw [htm] at htevs
    exact htevs
  have htevsC : (tevs.all fun ev => !ev.isCompletedWrite) = true := by
    rw [List.all_eq_true]
    intro ev hev
    rcases htevs' ev hev with ⟨ep, rfl⟩
    rfl
  refine ⟨?_, ?_, ?_⟩
  · intro h
    cases ic with
    | true =>
      rcases h with ⟨ev, hev, _⟩
      simp [process_job] at hev
    | false =>
      by_cases hn : n < 10
      · rw [process_job_eq_small jobId epochs n c a saveErr hn] at h
        exact absurd h (not_completed_of_all _
          (handleJobError_all_not_completed _ _ (by decide)))
      · rcases r with m' | ⟨finalModel, bestAcc⟩
        · rw [process_job_eq_trainError jobId epochs n c a saveErr tevs m' hn htm]
            at h
          exact absurd h (not_completed_of_all _
            (handleJobError_all_not_completed _ _
              (all_append2 _ _ _ (by decide) htevsC)))
        · rcases hse : saveErr with _ | m''
          · subst hse
            rw [process_job_eq_success jobId epochs n c a tevs finalModel bestAcc
              hn htm]
            exact ⟨[update_job_status Status.running none none
                (some Phase.initializing),
              update_job_progress Phase.loading_data 0,
              update_job_progress Phase.preparing_data 0] ++ tevs ++
              [update_job_progress Phase.saving_model epochs],
              finalModel, bestAcc, by simp⟩
          · subst hse
            rw [process_job_eq_saveError jobId epochs n c a tevs finalModel
              bestAcc m'' hn htm] at h
            exact absurd h (not_completed_of_all _
              (handleJobError_all_not_completed _ _
                (all_append3 _ _ _ _ (by decide) htevsC rfl)))
  · intro m hse
    subst hse
    cases ic with
    | true => rfl
    | false =>
      by_cases hn : n < 10
      · rw [process_job_eq_small jobId epochs n c a (some m) hn]
        exact handleJobError_all_not_completed _ _ (by decide)
      · rcases r with m' | ⟨finalModel, bestAcc⟩
        · rw [process_job_eq_trainError jobId epochs n c a (some m) tevs m' hn htm]
          exact handleJobError_all_not_completed _ _
            (all_append2 _ _ _ (by decide) htevsC)
        · rw [process_job_eq_saveError jobId epochs n c a tevs finalModel bestAcc
            m hn htm]
          exact handleJobError_all_not_completed _ _
            (all_append3 _ _ _ _ (by decide) htevsC rfl)
  · intro m hse hm hic hn hc hep
    subst hse
    subst hic
    rcases r with m' | ⟨finalModel, bestAcc⟩
    · exfalso
      rcases trainFrom_best_spec c a epochs 0 0 none
          (fun k _ hk2 => hc k (by omega))
          (fun j hj => absurd hj (Nat.not_lt_zero j))
          le_rfl (fun _ => rfl) (fun i hi => by cases hi)
        with ⟨best', bestSt', hres, _⟩
      have : (train_model epochs c a).2 = Except.error m' := by
        rw [htm]
      cases hepo : epochs with
      | zero => omega
      | succ k =>
        rw [hepo] at hres
        simp only [train_model, hepo] at this
        rw [hres] at this
        cases bestSt' <;> simp at this
    · rw [process_job_eq_saveError jobId epochs n c a tevs finalModel bestAcc
        m hn htm]
      rw [handleJobError_not_cancelled _ _ hm]
      simp [update_job_status, Event.isFailedWrite]

/-- Counterexample to C7 as stated: when the artifact upload raises an error
whose message happens to contain "cancelled" ("upload cancelled"), the job
is NOT transitioned to `failed` — the except clause string-matches the
message and skips the terminal write entirely (it is also never marked
`completed`, and the error propagates). -/
theorem artifact_error_claim_false :
    (process_job "j" 1 false 10 (fun _ => false) (fun _ => 0)
        (some "upload cancelled")).2 = Except.error "upload cancelled" ∧
    ((process_job "j" 1 false 10 (fun _ => false) (fun _ => 0)
        (some "upload cancelled")).1.any fun ev => ev.isFailedWrite) = false ∧
    ((process_job "j" 1 false 10 (fun _ => false) (fun _ => 0)
        (some "upload cancelled")).1.any fun ev => ev.isCompletedWrite) = false :=
  ⟨rfl, by decide, by decide⟩

/-- Witness for C7 (amended): a successful run's trace ends with artifact
upload, registry insert, `completed` — and an upload failure with message
"disk full" yields a `failed` write. -/
theorem completed_write_ordering_witness :
    (∃ pre finalModel bestAcc,
      (process_job "j" 1 false 10 (fun _ => false) (fun _ => 0) none).1 =
        pre ++ [Event.artifactPut ("j" ++ ".pt") finalModel,
                Event.modelRecord "j" ("j" ++ ".pt") bestAcc,
                update_job_status Status.completed none
                  (some ("j" ++ ".pt")) none]) ∧
    ((process_job "j" 1 false 10 (fun _ => false) (fun _ => 0)
        (some "disk full")).1.any fun ev => ev.isFailedWrite) = true :=
  ⟨(completed_write_ordering "j" 1 false 10 (fun _ => false) (fun _ => 0)
      none).1 (by decide),
   (completed_write_ordering "j" 1 false 10 (fun _ => false) (fun _ => 0)
      (some "disk full")).2.2 "disk full" rfl (by decide) rfl (by decide)
      (fun k _ => rfl) (by decide)⟩

/-- The split index never exceeds the list length. -/
lemma splitIdx_le (n : Nat) : splitIdx n ≤ n := by
  unfold splitIdx
  calc n * 8 / 10 ≤ n * 10 / 10 :=
        Nat.div_le_div_right (Nat.mul_le_mul_left n (by norm_num))
    _ = n := Nat.mul_div_cancel n (by norm_num)

/-- C5: the train/validation split partitions the shuffled candidate list by
index into a train slice of `floor(0.8 * n)` records and a validation slice
of the rest; concatenating them restores the list (so the two slices are
disjoint index ranges that exhaust it), and 100 candidates yield exactly
80 train / 20 validation records. -/
theorem train_val_split_partition (l : List Row) :
    train_split l ++ val_split l = l ∧
    (train_split l).length = splitIdx l.length ∧
    (val_split l).length = l.length - splitIdx l.length ∧
    (l.length = 100 → (train_split l).length = 80 ∧ (val_split l).length = 20) := by
  have hle : splitIdx l.length ≤ l.length := splitIdx_le l.length
  have hlen : (train_split l).length = splitIdx l.length := by
    rw [train_split, List.length_take]
    exact Nat.min_eq_left hle
  have hlenv : (val_split l).length = l.length - splitIdx l.length := by
    rw [val_split, List.length_drop]
  refine ⟨List.take_append_drop _ l, hlen, hlenv, ?_⟩
  intro h100
  rw [hlen, hlenv, h100]
  constructor <;> rfl

/-- Witness for C5 on a concrete 100-record list. -/
theorem train_val_split_partition_witness :
    (train_split (List.replicate 100 ⟨0, "", "", false, none⟩)).length = 80 ∧
    (val_split (List.replicate 100 ⟨0, "", "", false, none⟩)).length = 20 :=
  (train_val_split_partition (List.replicate 100 ⟨0, "", "", false, none⟩)).2.2.2
    (by simp)

/-- C10: with a minimum quality-score threshold configured, the candidate
query keeps every non-flagged record whose quality score is NULL, keeps
every non-flagged record whose score meets the threshold, and excludes a
non-flagged record on quality grounds exactly when it has a score strictly
below the threshold. -/
theorem quality_filter_keeps_null (q : ℚ) (rows : List Row) (r : Row)
    (hmem : r ∈ rows) (hflag : r.is_flagged = false) :
    (r.quality_score = none → r ∈ fetch_training_data (some q) rows) ∧
    (∀ s, r.quality_score = some s → q ≤ s →
      r ∈ fetch_training_data (some q) rows) ∧
    (r ∉ fetch_training_data (some q) rows ↔
      ∃ s, r.quality_score = some s ∧ s < q) := by
  refine ⟨?_, ?_, ?_⟩
  · intro hq
    rw [fetch_training_data, List.mem_filter]
    exact ⟨hmem, by simp [rowEligible, hflag, hq]⟩
  · intro s hq hle
    rw [fetch_training_data, List.mem_filter]
    exact ⟨hmem, by simp [rowEligible, hflag, hq, hle]⟩
  · rw [fetch_training_data, List.mem_filter]
    constructor
    · intro hnot
      rcases hq : r.quality_score with _ | s
      · exact absurd ⟨hmem, by simp [rowEligible, hflag, hq]⟩ hnot
      · refine ⟨s, rfl, ?_⟩
        by_contra hlt
        exact hnot ⟨hmem, by
          simp [rowEligible, hflag, hq]
          exact le_of_not_lt hlt⟩
    · rintro ⟨s, hq, hlt⟩ ⟨_, helig⟩
      rw [rowEligible] at helig
      simp [hflag, hq] at helig
      exact absurd helig (not_le.mpr hlt)

/-- Witness for C10: a non-flagged record with a NULL quality score survives
the filter with threshold 50. -/
theorem quality_filter_keeps_null_witness :
    (⟨1, "p", "circle", false, none⟩ : Row) ∈
      fetch_training_data (some 50) [⟨1, "p", "circle", false, none⟩] :=
  (quality_filter_keeps_null 50 [⟨1, "p", "circle", false, none⟩]
    ⟨1, "p", "circle", false, none⟩ (List.mem_singleton.mpr rfl) rfl).1 rfl

end ScaleAI

namespace Quality

/-- Each stroke-count check score lies in [0, 1]. -/
lemma check_stroke_count_bounds (d : StrokeData) :
    0 ≤ (check_stroke_count d).1 ∧ (check_stroke_count d).1 ≤ 1 := by
  simp only [check_stroke_count]
  split_ifs <;> norm_num

/-- Each point-count check score lies in [0, 1]. -/
lemma check_point_count_bounds (d : StrokeData) :
    0 ≤ (check_point_count d).1 ∧ (check_point_count d).1 ≤ 1 := by
  simp only [check_point_count]
  split_ifs <;> norm_num

/-- Each duration check score lies in [0, 1]. -/
lemma check_duration_bounds (d : StrokeData) :
    0 ≤ (check_duration d).1 ∧ (check_duration d).1 ≤ 1 := by
  simp only [check_duration]
  split_ifs <;> norm_num

/-- Each bounding-box check score lies in [0, 1]. -/
lemma check_bounding_box_bounds (d : StrokeData) :
    0 ≤ (check_bounding_box d).1 ∧ (check_bounding_box d).1 ≤ 1 := by
  simp only [check_bounding_box]
  split_ifs <;> norm_num

/-- Each ink-coverage check score lies in [0, 1]. -/
lemma check_ink_coverage_bounds (d : StrokeData) :
    0 ≤ (check_ink_coverage d).1 ∧ (check_ink_coverage d).1 ≤ 1 := by
  simp only [check_ink_coverage]
  split_ifs <;> norm_num

/-- Each stroke-quality check score lies in [0, 1]. -/
lemma check_stroke_quality_bounds (d : StrokeData) :
    0 ≤ (check_stroke_quality d).1 ∧ (check_stroke_quality d).1 ≤ 1 := by
  simp only [check_stroke_quality]
  split_ifs <;> norm_num

/-- The unrounded weighted score lies in [0, 100]. -/
lemma final_score_bounds (d : StrokeData) :
    0 ≤ final_score d ∧ final_score d ≤ 100 := by
  obtain ⟨h1a, h1b⟩ := check_stroke_count_bounds d
  obtain ⟨h2a, h2b⟩ := check_point_count_bounds d
  obtain ⟨h3a, h3b⟩ := check_duration_bounds d
  obtain ⟨h4a, h4b⟩ := check_bounding_box_bounds d
  obtain ⟨h5a, h5b⟩ := check_ink_coverage_bounds d
  obtain ⟨h6a, h6b⟩ := check_stroke_quality_bounds d
  unfold final_score
  constructor
  · have hws : (0 : ℚ) ≤
        1 * (check_stroke_count d).1 + 1 * (check_point_count d).1 +
        (1/2) * (check_duration d).1 + (3/2) * (check_bounding_box d).1 +
        1 * (check_ink_coverage d).1 + 1 * (check_stroke_quality d).1 := by
      linarith
    positivity
  · rw [div_mul_eq_mul_div, div_le_iff₀ (by norm_num : (0:ℚ) < 6)]
    linarith

/-- Rounding to tenths keeps a value of [0, 100] inside [0, 100]. -/
lemma roundTenth_bounds (x : ℚ) (h0 : 0 ≤ x) (h1 : x ≤ 100) :
    0 ≤ roundTenth x ∧ roundTenth x ≤ 100 := by
  unfold roundTenth
  have hlo : (0 : ℤ) ≤ round (10 * x) := by
    by_contra h
    push_neg at h
    have hz : round (10 * x) ≤ -1 := by omega
    have h2 : ((round (10 * x) : ℤ) : ℚ) ≤ -1 := by exact_mod_cast hz
    have h3 := sub_half_lt_round (10 * x)
    nlinarith
  have hhi : round (10 * x) ≤ 1000 := by
    by_contra h
    push_neg at h
    have h2 : (1001 : ℚ) ≤ ((round (10 * x) : ℤ) : ℚ) := by
      exact_mod_cast h
    have h3 := round_le_add_half (10 * x)
    nlinarith
  constructor
  · have : (0 : ℚ) ≤ ((round (10 * x) : ℤ) : ℚ) := by exact_mod_cast hlo
    positivity
  · rw [div_le_iff₀ (by norm_num : (0:ℚ) < 10)]
    have : ((round (10 * x) : ℤ) : ℚ) ≤ 1000 := by exact_mod_cast hhi
    linarith

/-- C8: for every stroke-data input, `score_drawing` returns a structure
whose score lies in [0, 100] (with a Boolean `passed` field, the six
per-check results, and one of the three recommendation strings). -/
theorem score_drawing_shape (d : StrokeData) :
    0 ≤ (score_drawing d).score ∧ (score_drawing d).score ≤ 100 ∧
    (score_drawing d).passed = decide (50 ≤ final_score d) ∧
    (score_drawing d).checks.length = 6 ∧
    ((score_drawing d).recommendation = "Include in training" ∨
     (score_drawing d).recommendation = "Review manually" ∨
     (score_drawing d).recommendation = "Exclude from training") := by
  obtain ⟨hf0, hf1⟩ := final_score_bounds d
  obtain ⟨hr0, hr1⟩ := roundTenth_bounds (final_score d) hf0 hf1
  refine ⟨hr0, hr1, rfl, rfl, ?_⟩
  have hrec : (score_drawing d).recommendation =
      (if 70 ≤ final_score d then "Include in training"
       else if 50 ≤ final_score d then "Review manually"
       else "Exclude from training") := rfl
  rw [hrec]
  split_ifs with h1 h2
  · exact Or.inl rfl
  · exact Or.inr (Or.inl rfl)
  · exact Or.inr (Or.inr rfl)

end Quality
